import Mathlib

/-!
Shallow embedding of `src/Routes/main.py` (the `ext-int` repository): a FastAPI
service exposing a snippet-analysis endpoint (`run_model` / `analyze_code_api`)
and a watchdog-based file monitor whose handler (`CodeChangeHandler.on_modified`)
runs the review pipeline (`analyze_code_file`, `save_review_documentation`,
`save_fixed_code`) on every eligible modification event.

Modelling conventions:
* A filesystem is an association list from path to current text content.
  `open(p, 'r')` is `readFile` (`none` models a raised `OSError`/vanished file);
  `open(p, 'w')` is `writeFile` (full truncating overwrite, creating the file
  if absent); `open(p, 'a')` is `appendFile` (create-if-absent append).
* External collaborators are oracles passed as parameters: the ollama chat
  backend is `Chat` (`none` models a raised backend exception), the Hugging
  Face generator is a `String → Except String (List GenOut)` oracle, and write
  failure of the store (`OSError` on open-for-write) is a `canWrite`
  predicate on paths.
* Python exceptions are `Except`: a function that can raise returns
  `Except Err _`, and — as with a real filesystem — writes performed before the
  raise survive, so the state is threaded alongside the `Except` result, not
  inside it.
* Python `str.endswith` is `pyEndsWith`, `os.path.join` is `joinPath`
  (all paths joined in this program are a relative directory and a plain
  filename, where `os.path.join a b = a ++ "/" ++ b`), `os.path.basename`
  is `basename` (the part after the last `/`).
* The watchdog `Observer` delivers events through one FIFO queue consumed by a
  single dispatcher thread that invokes handlers synchronously, one event at a
  time; an exception escaping a handler propagates out of the dispatch loop and
  terminates it. `dispatchLoop` is that loop with the queue contents given up
  front; `DStep` is the same loop as a transition system in which event
  arrivals interleave with run starts and run completions.
* Events carry an arrival time in milliseconds. The handler ignores it (there
  is no debouncing in the source); it exists only so that claims about the
  quiet period can be stated.
-/

set_option autoImplicit false

namespace ExtInt

/-! ## Configuration (main.py lines 13-17) -/

def HF_MODEL : String := "deepseek-ai/DeepSeek-R1"

def OLLAMA_MODEL : String := "deepseek-r1:1.5b"

def DIRECTORY : String := "./project"

/-! ## Python string and path primitives -/

/-- Python `s.endswith(suffix)`. -/
def pyEndsWith (s suffix : String) : Bool :=
  suffix.data.isSuffixOf s.data

/-- Python `os.path.join(a, b)` for the joins this program performs
(a relative directory and a plain filename). -/
def joinPath (a b : String) : String := a ++ "/" ++ b

/-- Python `os.path.basename(p)`: the part of `p` after the last `/`. -/
def basename (p : String) : String :=
  ⟨(p.data.reverse.takeWhile (fun c => c ≠ '/')).reverse⟩

/-! ## Filesystem model -/

/-- A filesystem: association list from path to current file content. -/
def FS : Type := List (String × String)

/-- `open(p, 'r').read()`: `none` models the raised `OSError` (file vanished
or unreadable). -/
def readFile : FS → String → Option String
  | [], _ => none
  | (q, t) :: rest, p => if p = q then some t else readFile rest p

/-- `open(p, 'w').write(s)`: truncating overwrite, creating the file if absent. -/
def writeFile : FS → String → String → FS
  | [], p, s => [(p, s)]
  | (q, t) :: rest, p, s =>
    if p = q then (q, s) :: rest else (q, t) :: writeFile rest p s

/-- `open(p, 'a').write(s)`: append, starting from empty if the file is absent. -/
def appendFile (fs : FS) (p s : String) : FS :=
  writeFile fs p ((readFile fs p).getD "" ++ s)

/-! ## Error kinds

One constructor per operation of the run that can raise in the source:
the read in `analyze_code_file`, the two `ollama.chat` calls, and the two
`open`-for-write calls in the save helpers. -/

inductive Err : Type
  | readError
  | inferenceError
  | persistError
  deriving DecidableEq, Repr

/-! ## Snippet endpoint (main.py lines 22-57) -/

/-- One element of the Hugging Face pipeline response list. -/
structure GenOut : Type where
  generated_text : String
  deriving DecidableEq, Repr

/-- The response body `{"analysis": ...}` of `run_model`. -/
structure AnalyzeResponse : Type where
  analysis : String
  deriving DecidableEq, Repr

/-- Result of the `/analyze` endpoint: a body, or an `HTTPException`
with a status code and detail message. -/
inductive ApiResult : Type
  | ok (body : AnalyzeResponse)
  | httpError (status : Nat) (detail : String)
  deriving DecidableEq, Repr

/-- The review prompt built by `run_model` (main.py lines 29-46). -/
def reviewPrompt (code : String) : String :=
  "\nYou are an AI code reviewer that analyzes Python code, detects errors, and suggests improvements.\n\n### Code to review:\npython\n        "
    ++ code ++
  "\n\n### Task:\n1. *Detect errors*: Identify syntax errors, incorrect function calls, and undefined variables.\n2. *Explain issues*: Clearly state what is wrong.\n3. *Suggest improvements*: Provide best practices or optimized solutions.\n4. *Provide Corrected Code*: Share the corrected version.\n\n### Expected Output:\n- *Error analysis* (detailed explanation)\n- *Improvement suggestions*\n- *Corrected version of the code*\n        "

/-- `run_model` (main.py lines 28-49): build the prompt, call the generator
once, take `response[0]['generated_text']`, wrap it as `{"analysis": ...}`.
Besides the result it returns the list of prompts sent to the generator.
An empty response list models the `IndexError` of `response[0]`. -/
def run_model (gen : String → Except String (List GenOut)) (code : String) :
    Except String AnalyzeResponse × List String :=
  let prompt := reviewPrompt code
  match gen prompt with
  | Except.error e => (Except.error e, [prompt])
  | Except.ok [] => (Except.error "list index out of range", [prompt])
  | Except.ok (r :: _) => (Except.ok ⟨r.generated_text⟩, [prompt])

/-- `analyze_code_api` (main.py lines 51-57): return `run_model`'s body, or
re-raise any exception as `HTTPException(status_code=500, detail=str(e))`. -/
def analyze_code_api (gen : String → Except String (List GenOut))
    (code : String) : ApiResult × List String :=
  match run_model gen code with
  | (Except.ok body, ps) => (ApiResult.ok body, ps)
  | (Except.error e, ps) => (ApiResult.httpError 500 e, ps)

/-! ## Review pipeline (main.py lines 60-90) -/

/-- An ollama chat message. -/
structure ChatMsg : Type where
  role : String
  content : String
  deriving DecidableEq, Repr

/-- The ollama backend as an oracle on (model, messages); `none` models a
raised backend exception. -/
def Chat : Type := String → List ChatMsg → Option String

/-- Messages of the review call (main.py lines 65-68). -/
def reviewMessages (code : String) : List ChatMsg :=
  [⟨"system", "You are an expert code reviewer. Review the provided code, detect bugs, suggest improvements, and provide a fixed version."⟩,
   ⟨"user", "Review this code and detect possible issues:\n\n" ++ code⟩]

/-- Messages of the fix call (main.py lines 72-75). -/
def fixMessages (code : String) : List ChatMsg :=
  [⟨"system", "You are an expert code reviewer. Provide a corrected version of the given Python code."⟩,
   ⟨"user", "Fix the following code:\n\n" ++ code⟩]

/-- `analyze_code_file` (main.py lines 60-78): read the file, make the review
chat call, make the fix chat call, return `(review, fixed_code)`. Besides the
result it returns the trace of (model, messages) chat calls actually issued. -/
def analyze_code_file (chat : Chat) (fs : FS) (file_path : String) :
    Except Err (String × String) × List (String × List ChatMsg) :=
  match readFile fs file_path with
  | none => (Except.error Err.readError, [])
  | some code =>
    match chat OLLAMA_MODEL (reviewMessages code) with
    | none => (Except.error Err.inferenceError, [(OLLAMA_MODEL, reviewMessages code)])
    | some review =>
      match chat OLLAMA_MODEL (fixMessages code) with
      | none =>
        (Except.error Err.inferenceError,
         [(OLLAMA_MODEL, reviewMessages code), (OLLAMA_MODEL, fixMessages code)])
      | some fixed_code =>
        (Except.ok (review, fixed_code),
         [(OLLAMA_MODEL, reviewMessages code), (OLLAMA_MODEL, fixMessages code)])

/-- Path of the review log (main.py line 81). -/
def docPath : String := joinPath DIRECTORY "code_review_documentation.txt"

/-- Python `'-' * 40`. -/
def separator : String := ⟨List.replicate 40 '-'⟩

/-- The block appended per review:
`f"Review for {file_name}:\n{review}\n{'-'*40}\n"` (main.py line 83). -/
def reviewBlock (file_name review : String) : String :=
  "Review for " ++ file_name ++ ":\n" ++ review ++ "\n" ++ separator ++ "\n"

/-- `save_review_documentation` (main.py lines 80-84): append the review block
to the log; `canWrite` false models `open(doc_path, 'a')` raising `OSError`.
Besides the result it returns the lines printed. -/
def save_review_documentation (canWrite : String → Bool) (fs : FS)
    (review file_name : String) : Except Err FS × List String :=
  if canWrite docPath then
    (Except.ok (appendFile fs docPath (reviewBlock file_name review)),
     ["Updated review for " ++ file_name])
  else
    (Except.error Err.persistError, [])

/-- Path of the fixed artifact for a source filename (main.py line 87). -/
def fixedPath (file_name : String) : String :=
  joinPath DIRECTORY ("fixed_" ++ file_name)

/-- `save_fixed_code` (main.py lines 86-90): full overwrite of the fixed slot;
`canWrite` false models `open(fixed_file_path, 'w')` raising `OSError`.
Besides the result it returns the lines printed. -/
def save_fixed_code (canWrite : String → Bool) (fs : FS)
    (fixed_code file_name : String) : Except Err FS × List String :=
  if canWrite (fixedPath file_name) then
    (Except.ok (writeFile fs (fixedPath file_name) fixed_code),
     ["Updated fixed code for " ++ file_name])
  else
    (Except.error Err.persistError, [])

/-! ## Change handler and dispatch (main.py lines 92-119) -/

/-- A watchdog modification event. `time` is the arrival time in milliseconds;
the handler never reads it (no debouncing in the source). -/
structure Event : Type where
  is_directory : Bool
  src_path : String
  time : Nat
  deriving DecidableEq, Repr

/-- The negation of the early-return guard of `on_modified` (main.py line 94):
the event is handled iff it is not a directory and the path ends in `.py`. -/
def eligibleEvent (is_dir : Bool) (path : String) : Bool :=
  !(is_dir || !(pyEndsWith path ".py"))

/-- `CodeChangeHandler.on_modified` (main.py lines 92-100): filter, print the
detection line, run `analyze_code_file`, append the review, overwrite the fixed
artifact. There is no `try`/`except`: an error makes the handler raise, and the
filesystem keeps every write completed before the raise. Returns
(result, filesystem after the call, lines printed). -/
def on_modified (chat : Chat) (canWrite : String → Bool) (fs : FS)
    (event : Event) : Except Err Unit × FS × List String :=
  if event.is_directory || !(pyEndsWith event.src_path ".py") then
    (Except.ok (), fs, [])
  else
    let file_name := basename event.src_path
    let p0 := "Detected change in " ++ file_name ++ ", analyzing..."
    match analyze_code_file chat fs event.src_path with
    | (Except.error e, _) => (Except.error e, fs, [p0])
    | (Except.ok (review, fixed_code), _) =>
      match save_review_documentation canWrite fs review file_name with
      | (Except.error e, pr1) => (Except.error e, fs, p0 :: pr1)
      | (Except.ok fs1, pr1) =>
        match save_fixed_code canWrite fs1 fixed_code file_name with
        | (Except.error e, pr2) => (Except.error e, fs1, p0 :: (pr1 ++ pr2))
        | (Except.ok fs2, pr2) => (Except.ok (), fs2, p0 :: (pr1 ++ pr2))

/-- The watchdog observer's dispatch loop over the queued events: one
dispatcher thread invokes `on_modified` synchronously for each event in FIFO
order; an exception escaping the handler terminates the loop, leaving the
remaining events unprocessed. Returns (result, final filesystem, source paths
of the pipeline runs started, in start order). -/
def dispatchLoop (chat : Chat) (canWrite : String → Bool) :
    FS → List Event → Except Err Unit × FS × List String
  | fs, [] => (Except.ok (), fs, [])
  | fs, e :: rest =>
    let runs0 : List String :=
      if eligibleEvent e.is_directory e.src_path then [e.src_path] else []
    match on_modified chat canWrite fs e with
    | (Except.error err, fs1, _) => (Except.error err, fs1, runs0)
    | (Except.ok _, fs1, _) =>
      match dispatchLoop chat canWrite fs1 rest with
      | (r, fs2, runs) => (r, fs2, runs0 ++ runs)

/-- The debounce quiet period of the specification (design default: 1 second).
The source has no debouncing, so no definition above reads this; it exists to
state the quiet-period claims. -/
def QUIET_PERIOD_MS : Nat := 1000

/-! ## The observer dispatch loop as a transition system

`dispatchLoop` above fixes the queue contents up front; to speak about events
that arrive while a handler runs, the same single-queue single-dispatcher
observer is also given as a small-step system. A state records the pending
FIFO queue, the handler invocation currently executing (at most one, because
one dispatcher thread invokes handlers synchronously), the events dequeued so
far in dequeue order, and every event delivered so far in arrival order. -/

structure DispatchState : Type where
  queue : List Event
  running : Option Event
  dequeued : List Event
  arrived : List Event
  deriving DecidableEq, Repr

/-- Observer state at startup: nothing queued, nothing running. -/
def initState : DispatchState := ⟨[], none, [], []⟩

/-- One step of the observer: an emitter enqueues an event; or the dispatcher,
when idle, pops the queue head and either returns at the guard (`skip`, the
event is a directory or not a `.py` path) or begins a pipeline run (`start`);
or the running handler returns (`finish`). -/
inductive DStep : DispatchState → DispatchState → Prop
  | arrive (s : DispatchState) (e : Event) :
      DStep s ⟨s.queue ++ [e], s.running, s.dequeued, s.arrived ++ [e]⟩
  | skip (s : DispatchState) (e : Event) (q : List Event)
      (hq : s.queue = e :: q) (hr : s.running = none)
      (he : eligibleEvent e.is_directory e.src_path = false) :
      DStep s ⟨q, none, s.dequeued ++ [e], s.arrived⟩
  | start (s : DispatchState) (e : Event) (q : List Event)
      (hq : s.queue = e :: q) (hr : s.running = none)
      (he : eligibleEvent e.is_directory e.src_path = true) :
      DStep s ⟨q, some e, s.dequeued ++ [e], s.arrived⟩
  | finish (s : DispatchState) (e : Event) (hr : s.running = some e) :
      DStep s ⟨s.queue, none, s.dequeued, s.arrived⟩

/-- Reachability of an observer state from startup. -/
def Reaches (s t : DispatchState) : Prop := Relation.ReflTransGen DStep s t

/-- The pipeline runs started so far, in start order: the eligible events among
the dequeued ones. -/
def runsStarted (s : DispatchState) : List Event :=
  s.dequeued.filter (fun e => eligibleEvent e.is_directory e.src_path)

/-- The pipeline runs currently in flight (the handler invocation executing,
if any, when it passed the guard). -/
def inFlight (s : DispatchState) : List Event :=
  (s.running.toList).filter (fun e => eligibleEvent e.is_directory e.src_path)

/-! ## Filesystem lemmas -/

theorem readFile_writeFile_self (fs : FS) (p s : String) :
    readFile (writeFile fs p s) p = some s := by
  induction fs with
  | nil => simp [readFile, writeFile]
  | cons hd tl ih =>
    obtain ⟨q, t⟩ := hd
    by_cases h : p = q
    · simp [readFile, writeFile, h]
    · simp [readFile, writeFile, h, ih]

theorem readFile_writeFile_ne (fs : FS) (p s q : String) (h : q ≠ p) :
    readFile (writeFile fs p s) q = readFile fs q := by
  induction fs with
  | nil => simp [readFile, writeFile, h]
  | cons hd tl ih =>
    obtain ⟨r, t⟩ := hd
    by_cases hp : p = r
    · subst hp
      simp [readFile, writeFile, h]
    · by_cases hq : q = r
      · simp [readFile, writeFile, hp, hq]
      · simp [readFile, writeFile, hp, hq, ih]

theorem readFile_appendFile_self (fs : FS) (p s : String) :
    readFile (appendFile fs p s) p = some ((readFile fs p).getD "" ++ s) := by
  simp [appendFile, readFile_writeFile_self]

theorem readFile_appendFile_ne (fs : FS) (p s q : String) (h : q ≠ p) :
    readFile (appendFile fs p s) q = readFile fs q := by
  simp [appendFile, readFile_writeFile_ne fs p _ q h]

/-! ## String and guard lemmas -/

theorem guard_of_eligible (d : Bool) (p : String)
    (h : eligibleEvent d p = true) : (d || !(pyEndsWith p ".py")) = false := by
  cases d <;> cases hp : pyEndsWith p ".py" <;> simp_all [eligibleEvent]

theorem pyEndsWith_append (a b suffix : String)
    (h : pyEndsWith b suffix = true) : pyEndsWith (a ++ b) suffix = true := by
  unfold pyEndsWith at h ⊢
  rw [List.isSuffixOf_iff_suffix] at h ⊢
  rw [String.data_append]
  exact h.trans (List.suffix_append a.data b.data)

theorem fixedPath_ne_docPath (name : String) : fixedPath name ≠ docPath := by
  intro h
  have hd : "./project/fixed_".data ++ name.data = docPath.data :=
    congrArg String.data h
  have h16 := congrArg (List.take 16) hd
  rw [show (16 : Nat) = ("./project/fixed_".data).length from by decide,
    List.take_left] at h16
  exact absurd h16 (by decide)

theorem inFlight_filter_length (s : DispatchState) (p : String) :
    ((inFlight s).filter (fun e => e.src_path = p)).length ≤ 1 := by
  cases hr : s.running with
  | none => simp [inFlight, hr]
  | some e =>
    calc ((inFlight s).filter (fun e => e.src_path = p)).length
        ≤ (inFlight s).length := List.length_filter_le _ _
      _ ≤ (s.running.toList).length := by
          simp only [inFlight]; exact List.length_filter_le _ _
      _ ≤ 1 := by simp [hr]

/-! ## Claim theorems -/

/-- Claim C1, amended: the source has no debouncing, so each eligible
modification event is dispatched to its own pipeline run. Whenever the
dispatch loop completes without an exception, the runs started are exactly
the eligible events, in order — N events to the same file yield N runs,
however closely spaced, each reading the file at its own dispatch time. -/
theorem C1_thm (chat : Chat) (cw : String → Bool) (fs : FS)
    (events : List Event)
    (h : (dispatchLoop chat cw fs events).1 = Except.ok ()) :
    (dispatchLoop chat cw fs events).2.2 =
      (events.filter (fun e => eligibleEvent e.is_directory e.src_path)).map
        Event.src_path := by
  induction events generalizing fs with
  | nil => simp [dispatchLoop]
  | cons e rest ih =>
    rcases hom : on_modified chat cw fs e with ⟨res, fs1, pr⟩
    cases res with
    | error err =>
      have hd : dispatchLoop chat cw fs (e :: rest) =
          (Except.error err, fs1,
           if eligibleEvent e.is_directory e.src_path then [e.src_path]
           else []) := by
        simp [dispatchLoop, hom]
      rw [hd] at h
      simp at h
    | ok u =>
      cases u
      rcases hrec : dispatchLoop chat cw fs1 rest with ⟨r2, fs2, runs⟩
      have hd : dispatchLoop chat cw fs (e :: rest) =
          (r2, fs2,
           (if eligibleEvent e.is_directory e.src_path then [e.src_path]
            else []) ++ runs) := by
        simp [dispatchLoop, hom, hrec]
      rw [hd] at h ⊢
      have h2 : (dispatchLoop chat cw fs1 rest).1 = Except.ok () := by
        rw [hrec]; exact h
      have hruns := ih fs1 h2
      rw [hrec] at hruns
      simp only at hruns
      by_cases helig : eligibleEvent e.is_directory e.src_path = true
      · simp [helig, List.filter_cons, hruns]
      · simp [Bool.not_eq_true] at helig
        simp [helig, List.filter_cons, hruns]

/-- Claim C1, counterexample: two modification events to `./project/a.py`
arriving 100 ms apart — well within the 1 s quiet period — trigger two
pipeline runs, not exactly one. -/
theorem C1_counterexample :
    100 - 0 < QUIET_PERIOD_MS ∧
    ((dispatchLoop (fun _ _ => some "ok") (fun _ => true)
        [("./project/a.py", "x = 1")]
        [⟨false, "./project/a.py", 0⟩, ⟨false, "./project/a.py", 100⟩]).2.2).length
      = 2 ∧
    ¬ ((dispatchLoop (fun _ _ => some "ok") (fun _ => true)
        [("./project/a.py", "x = 1")]
        [⟨false, "./project/a.py", 0⟩, ⟨false, "./project/a.py", 100⟩]).2.2).length
      = 1 := by
  refine ⟨by decide, by decide, by decide⟩

/-- Claim C1, witness: the amended theorem applied to the concrete
two-event scenario. -/
theorem C1_witness :
    (dispatchLoop (fun _ _ => some "ok") (fun _ => true)
        [("./project/a.py", "x = 1")]
        [⟨false, "./project/a.py", 0⟩, ⟨false, "./project/a.py", 100⟩]).2.2 =
      (([⟨false, "./project/a.py", 0⟩,
         ⟨false, "./project/a.py", 100⟩] : List Event).filter
          (fun e => eligibleEvent e.is_directory e.src_path)).map
        Event.src_path :=
  C1_thm (fun _ _ => some "ok") (fun _ => true)
    [("./project/a.py", "x = 1")]
    [⟨false, "./project/a.py", 0⟩, ⟨false, "./project/a.py", 100⟩] rfl

/-- Claim C2, amended: `on_modified` has no `try`/`except`, so an error raised
while reading or during inference aborts the run with no writes performed
(the filesystem is returned unchanged), propagates uncaught out of the
handler, and terminates the observer dispatch loop — the remaining queued
events, including those of other files, are never processed. -/
theorem C2_thm (chat : Chat) (cw : String → Bool) (fs : FS) (e : Event)
    (rest : List Event) (err : Err)
    (he : eligibleEvent e.is_directory e.src_path = true)
    (herr : (analyze_code_file chat fs e.src_path).1 = Except.error err) :
    dispatchLoop chat cw fs (e :: rest) = (Except.error err, fs, [e.src_path]) := by
  have hg := guard_of_eligible _ _ he
  rcases ha : analyze_code_file chat fs e.src_path with ⟨res, tr⟩
  rw [ha] at herr
  simp only at herr
  subst herr
  have hom : on_modified chat cw fs e =
      (Except.error err, fs,
       ["Detected change in " ++ basename e.src_path ++ ", analyzing..."]) := by
    simp [on_modified, hg, ha]
  simp [dispatchLoop, hom, he]

/-- Claim C2, counterexample: with `./project/a.py` unreadable and
`./project/b.py` present and healthy, the read error of the `a.py` run
propagates out of the handler (the loop result is that error) and the `b.py`
event is never processed — the claim says the error is caught and the
dispatcher continues with other files. -/
theorem C2_counterexample :
    (dispatchLoop (fun _ _ => some "ok") (fun _ => true)
        [("./project/b.py", "y = 2")]
        [⟨false, "./project/a.py", 0⟩, ⟨false, "./project/b.py", 50⟩]).1 =
      Except.error Err.readError ∧
    (dispatchLoop (fun _ _ => some "ok") (fun _ => true)
        [("./project/b.py", "y = 2")]
        [⟨false, "./project/a.py", 0⟩, ⟨false, "./project/b.py", 50⟩]).2.2 =
      ["./project/a.py"] := by
  exact ⟨rfl, rfl⟩

/-- Claim C2, witness: the amended theorem applied to the concrete
failing-read scenario. -/
theorem C2_witness :
    dispatchLoop (fun _ _ => some "ok") (fun _ => true)
        [("./project/b.py", "y = 2")]
        [⟨false, "./project/a.py", 0⟩, ⟨false, "./project/b.py", 50⟩] =
      (Except.error Err.readError, [("./project/b.py", "y = 2")],
       ["./project/a.py"]) :=
  C2_thm (fun _ _ => some "ok") (fun _ => true)
    [("./project/b.py", "y = 2")] ⟨false, "./project/a.py", 0⟩
    [⟨false, "./project/b.py", 50⟩] Err.readError (by decide) rfl

/-- Claim C4, amended: if the source file cannot be read, the run performs
zero writes to the artifact store — the filesystem is returned exactly as it
was, so no review block is appended and the fixed slot is untouched — but the
`ReadError` is not logged: the only line printed is the detection line, and
the error propagates uncaught out of the handler. -/
theorem C4_thm (chat : Chat) (cw : String → Bool) (fs : FS) (event : Event)
    (he : eligibleEvent event.is_directory event.src_path = true)
    (hr : readFile fs event.src_path = none) :
    on_modified chat cw fs event =
      (Except.error Err.readError, fs,
       ["Detected change in " ++ basename event.src_path ++ ", analyzing..."]) := by
  have hg := guard_of_eligible _ _ he
  simp [on_modified, hg, analyze_code_file, hr]

/-- Claim C4, counterexample: with `./project/a.py` absent, the handler ends
in a raised `ReadError` rather than a logged failure — its result is the
error (which under the observer semantics escapes the handler), and its print
trace holds only the detection line, no failure entry. -/
theorem C4_counterexample :
    (on_modified (fun _ _ => some "r") (fun _ => true) []
        ⟨false, "./project/a.py", 0⟩).1 = Except.error Err.readError ∧
    (on_modified (fun _ _ => some "r") (fun _ => true) []
        ⟨false, "./project/a.py", 0⟩).2.2 =
      ["Detected change in a.py, analyzing..."] := by
  exact ⟨rfl, rfl⟩

/-- Claim C4, witness: the amended theorem applied to the concrete
vanished-file scenario. -/
theorem C4_witness :
    on_modified (fun _ _ => some "r") (fun _ => true)
        [("./project/b.py", "y = 2")] ⟨false, "./project/a.py", 7⟩ =
      (Except.error Err.readError, [("./project/b.py", "y = 2")],
       ["Detected change in " ++ basename "./project/a.py" ++ ", analyzing..."]) :=
  C4_thm (fun _ _ => some "r") (fun _ => true)
    [("./project/b.py", "y = 2")] ⟨false, "./project/a.py", 7⟩ (by decide) rfl

/-- Claim C5, confirmed: a pipeline run that returns successfully has issued
exactly two backend calls — the review call and then the fix call — and both
calls carry the same source content `code`; the messages of the fix call are
built from `code` alone, so the review call's output is not chained into the
fix call's input. -/
theorem C5_thm (chat : Chat) (fs : FS)
    (file_path code review fixed_code : String)
    (trace : List (String × List ChatMsg))
    (hread : readFile fs file_path = some code)
    (h : analyze_code_file chat fs file_path = (Except.ok (review, fixed_code), trace)) :
    trace = [(OLLAMA_MODEL, reviewMessages code), (OLLAMA_MODEL, fixMessages code)] ∧
    trace.length = 2 ∧
    (reviewMessages code).map ChatMsg.content =
      ["You are an expert code reviewer. Review the provided code, detect bugs, suggest improvements, and provide a fixed version.",
       "Review this code and detect possible issues:\n\n" ++ code] ∧
    (fixMessages code).map ChatMsg.content =
      ["You are an expert code reviewer. Provide a corrected version of the given Python code.",
       "Fix the following code:\n\n" ++ code] := by
  simp only [analyze_code_file, hread] at h
  rcases hc1 : chat OLLAMA_MODEL (reviewMessages code) with _ | rev
  · rw [hc1] at h
    simp at h
  · rw [hc1] at h
    rcases hc2 : chat OLLAMA_MODEL (fixMessages code) with _ | fx
    · rw [hc2] at h
      simp at h
    · rw [hc2] at h
      simp only [Prod.mk.injEq, Except.ok.injEq] at h
      exact ⟨h.2.symm, by rw [← h.2]; rfl, rfl, rfl⟩

/-- Claim C5, witness: the theorem applied to a concrete successful run. -/
theorem C5_witness :
    (analyze_code_file (fun _ _ => some "out") [("p.py", "c")] "p.py").2 =
      [(OLLAMA_MODEL, reviewMessages "c"), (OLLAMA_MODEL, fixMessages "c")] ∧
    (analyze_code_file (fun _ _ => some "out") [("p.py", "c")] "p.py").2.length = 2 := by
  have h := C5_thm (fun _ _ => some "out") [("p.py", "c")] "p.py" "c" "out" "out"
    ((analyze_code_file (fun _ _ => some "out") [("p.py", "c")] "p.py").2) rfl rfl
  exact ⟨h.1, h.2.1⟩

/-- Claim C6, confirmed: `save_review_documentation` appends exactly the block
`Review for <filename>:\n<review text>\n<separator>\n` at the end of the log,
leaving the previous log content in place as an unchanged prefix and every
other file of the store untouched; hence the log only ever grows, in write
order. -/
theorem C6_thm (cw : String → Bool) (fs : FS) (review file_name : String)
    (h : cw docPath = true) :
    save_review_documentation cw fs review file_name =
      (Except.ok (appendFile fs docPath (reviewBlock file_name review)),
       ["Updated review for " ++ file_name]) ∧
    readFile (appendFile fs docPath (reviewBlock file_name review)) docPath =
      some ((readFile fs docPath).getD "" ++ reviewBlock file_name review) ∧
    (∀ q : String, q ≠ docPath →
      readFile (appendFile fs docPath (reviewBlock file_name review)) q =
        readFile fs q) ∧
    reviewBlock file_name review =
      "Review for " ++ file_name ++ ":\n" ++ review ++ "\n" ++ separator ++ "\n" := by
  refine ⟨by simp [save_review_documentation, h], ?_, ?_, rfl⟩
  · exact readFile_appendFile_self fs docPath (reviewBlock file_name review)
  · intro q hq
    exact readFile_appendFile_ne fs docPath _ q hq

/-- Claim C6, witness: the theorem applied to a concrete append over a log
that already holds one record; the prior record survives as a prefix. -/
theorem C6_witness :
    readFile
        (appendFile [(docPath, reviewBlock "old.py" "prior")] docPath
          (reviewBlock "a.py" "fresh")) docPath =
      some ((readFile [(docPath, reviewBlock "old.py" "prior")] docPath).getD ""
        ++ reviewBlock "a.py" "fresh") ∧
    readFile
        (appendFile [(docPath, reviewBlock "old.py" "prior")] docPath
          (reviewBlock "a.py" "fresh")) (fixedPath "a.py") =
      readFile [(docPath, reviewBlock "old.py" "prior")] (fixedPath "a.py") := by
  have h := C6_thm (fun _ => true) [(docPath, reviewBlock "old.py" "prior")]
    "fresh" "a.py" rfl
  exact ⟨h.2.1, h.2.2.1 (fixedPath "a.py") (fixedPath_ne_docPath "a.py")⟩

/-- Claim C7, confirmed: the fixed-artifact slot for a source filename is the
single path `DIRECTORY/fixed_<filename>`, a deterministic function of the
filename; `save_fixed_code` fully overwrites that slot, so afterwards it reads
back exactly the latest fix text, and no other slot is touched. -/
theorem C7_thm (cw : String → Bool) (fs : FS) (fixed_code file_name : String)
    (h : cw (fixedPath file_name) = true) :
    save_fixed_code cw fs fixed_code file_name =
      (Except.ok (writeFile fs (fixedPath file_name) fixed_code),
       ["Updated fixed code for " ++ file_name]) ∧
    readFile (writeFile fs (fixedPath file_name) fixed_code)
        (fixedPath file_name) = some fixed_code ∧
    (∀ q : String, q ≠ fixedPath file_name →
      readFile (writeFile fs (fixedPath file_name) fixed_code) q =
        readFile fs q) ∧
    fixedPath file_name = DIRECTORY ++ "/" ++ ("fixed_" ++ file_name) := by
  refine ⟨by simp [save_fixed_code, h], ?_, ?_, rfl⟩
  · exact readFile_writeFile_self fs (fixedPath file_name) fixed_code
  · intro q hq
    exact readFile_writeFile_ne fs (fixedPath file_name) fixed_code q hq

/-- Claim C7, witness: the theorem applied to a concrete overwrite of a slot
that already holds an older fix; afterwards the slot holds exactly the new
text. -/
theorem C7_witness :
    readFile
        (writeFile [(fixedPath "a.py", "old fix")] (fixedPath "a.py") "new fix")
        (fixedPath "a.py") = some "new fix" ∧
    readFile
        (writeFile [(fixedPath "a.py", "old fix")] (fixedPath "a.py") "new fix")
        docPath = readFile [(fixedPath "a.py", "old fix")] docPath := by
  have h := C7_thm (fun _ => true) [(fixedPath "a.py", "old fix")]
    "new fix" "a.py" rfl
  exact ⟨h.2.1, h.2.2.1 docPath (fixedPath_ne_docPath "a.py").symm⟩

/-- Claim C8, confirmed: the snippet endpoint sends the generator exactly one
prompt (the review prompt for the given code) in every case; on success it
returns the generator's raw `generated_text` wrapped in the single `analysis`
field, and on generator failure it returns `HTTPException` status 500 whose
detail is the underlying error message. The definition threads no filesystem:
the endpoint persists nothing. -/
theorem C8_thm (gen : String → Except String (List GenOut)) (code : String) :
    (analyze_code_api gen code).2 = [reviewPrompt code] ∧
    (∀ (r : GenOut) (rest : List GenOut),
      gen (reviewPrompt code) = Except.ok (r :: rest) →
      (analyze_code_api gen code).1 = ApiResult.ok ⟨r.generated_text⟩) ∧
    (∀ e : String, gen (reviewPrompt code) = Except.error e →
      (analyze_code_api gen code).1 = ApiResult.httpError 500 e) := by
  rcases hg : gen (reviewPrompt code) with e | l
  · refine ⟨by simp [analyze_code_api, run_model, hg], ?_, ?_⟩
    · intro r rest hr
      simp at hr
    · intro e2 he
      injection he with h1
      subst h1
      simp [analyze_code_api, run_model, hg]
  · cases l with
    | nil =>
      refine ⟨by simp [analyze_code_api, run_model, hg], ?_, ?_⟩
      · intro r rest hr
        simp at hr
      · intro e2 he
        simp at he
    | cons r0 rest0 =>
      refine ⟨by simp [analyze_code_api, run_model, hg], ?_, ?_⟩
      · intro r rest hr
        injection hr with h1
        injection h1 with h2 h3
        subst h2
        simp [analyze_code_api, run_model, hg]
      · intro e2 he
        simp at he

/-- Claim C8, witness: the theorem applied to the spec's scenario stub (the
review of `x = 1/0`) and to a failing generator. -/
theorem C8_witness :
    (analyze_code_api
        (fun _ => Except.ok
          [⟨"Error: division by zero; suggest guarding denominator."⟩])
        "x = 1/0").1 =
      ApiResult.ok ⟨"Error: division by zero; suggest guarding denominator."⟩ ∧
    (analyze_code_api
        (fun _ => Except.ok
          [⟨"Error: division by zero; suggest guarding denominator."⟩])
        "x = 1/0").2 = [reviewPrompt "x = 1/0"] ∧
    (analyze_code_api (fun _ => Except.error "backend timeout") "x = 1/0").1 =
      ApiResult.httpError 500 "backend timeout" := by
  refine ⟨?_, ?_, ?_⟩
  · exact (C8_thm
      (fun _ => Except.ok
        [⟨"Error: division by zero; suggest guarding denominator."⟩])
      "x = 1/0").2.1 ⟨"Error: division by zero; suggest guarding denominator."⟩
      [] rfl
  · exact (C8_thm
      (fun _ => Except.ok
        [⟨"Error: division by zero; suggest guarding denominator."⟩])
      "x = 1/0").1
  · exact (C8_thm (fun _ => Except.error "backend timeout") "x = 1/0").2.2
      "backend timeout" rfl

/-- Claim C9, confirmed: for a watched source filename ending in `.py` (a
plain basename, no separator), the fixed-artifact path written by a run is
the direct child `fixed_<filename>` of the watched directory, itself ends in
`.py`, and passes the change handler's own eligibility guard — so a run's
output is an eligible trigger for a further run. -/
theorem C9_thm (file_name : String)
    (h1 : pyEndsWith file_name ".py" = true)
    (h2 : '/' ∉ file_name.data) :
    pyEndsWith (fixedPath file_name) ".py" = true ∧
    eligibleEvent false (fixedPath file_name) = true ∧
    fixedPath file_name = DIRECTORY ++ "/" ++ ("fixed_" ++ file_name) ∧
    '/' ∉ ("fixed_" ++ file_name).data := by
  have hpy : pyEndsWith (fixedPath file_name) ".py" = true :=
    pyEndsWith_append "./project/fixed_" file_name ".py" h1
  refine ⟨hpy, by simp [eligibleEvent, hpy], rfl, ?_⟩
  intro hmem
  rw [String.data_append, List.mem_append] at hmem
  rcases hmem with hm | hm
  · exact absurd hm (by decide)
  · exact h2 hm

/-- Claim C9, witness: the theorem applied to the filename `a.py`. -/
theorem C9_witness :
    pyEndsWith (fixedPath "a.py") ".py" = true ∧
    eligibleEvent false (fixedPath "a.py") = true :=
  ⟨(C9_thm "a.py" (by decide) (by decide)).1,
   (C9_thm "a.py" (by decide) (by decide)).2.1⟩

/-- Claim C10, confirmed: within one run the review block is appended to the
log strictly before the fixed artifact is written; if the fixed-artifact write
then fails, the handler ends in `PersistError` with the review block already
appended — the log holds the new record while the fixed slot still reads its
previous content — so the pair of artifacts is not written atomically. -/
theorem C10_thm (chat : Chat) (cw : String → Bool) (fs : FS) (event : Event)
    (code review fixed_code : String)
    (he : eligibleEvent event.is_directory event.src_path = true)
    (hread : readFile fs event.src_path = some code)
    (hc1 : chat OLLAMA_MODEL (reviewMessages code) = some review)
    (hc2 : chat OLLAMA_MODEL (fixMessages code) = some fixed_code)
    (hwd : cw docPath = true)
    (hwf : cw (fixedPath (basename event.src_path)) = false) :
    on_modified chat cw fs event =
      (Except.error Err.persistError,
       appendFile fs docPath (reviewBlock (basename event.src_path) review),
       ["Detected change in " ++ basename event.src_path ++ ", analyzing...",
        "Updated review for " ++ basename event.src_path]) ∧
    readFile (appendFile fs docPath (reviewBlock (basename event.src_path) review))
        docPath =
      some ((readFile fs docPath).getD ""
        ++ reviewBlock (basename event.src_path) review) ∧
    readFile (appendFile fs docPath (reviewBlock (basename event.src_path) review))
        (fixedPath (basename event.src_path)) =
      readFile fs (fixedPath (basename event.src_path)) := by
  have hg := guard_of_eligible _ _ he
  refine ⟨?_, readFile_appendFile_self fs docPath _, ?_⟩
  · simp [on_modified, hg, analyze_code_file, hread, hc1, hc2,
      save_review_documentation, hwd, save_fixed_code, hwf]
  · exact readFile_appendFile_ne fs docPath _ _
      (fixedPath_ne_docPath (basename event.src_path))

/-- Claim C10, witness: the theorem applied to a concrete run whose log append
succeeds and whose fixed-artifact write fails; afterwards the log holds the
fresh record and the fixed slot still holds its previous fix. -/
theorem C10_witness :
    (on_modified (fun _ _ => some "txt") (fun p => p == docPath)
        [("./project/a.py", "def f(: pass"), (fixedPath "a.py", "old fix")]
        ⟨false, "./project/a.py", 0⟩).1 = Except.error Err.persistError ∧
    readFile
        (appendFile [("./project/a.py", "def f(: pass"), (fixedPath "a.py", "old fix")]
          docPath (reviewBlock (basename "./project/a.py") "txt")) docPath =
      some ((readFile
          [("./project/a.py", "def f(: pass"), (fixedPath "a.py", "old fix")]
          docPath).getD ""
        ++ reviewBlock (basename "./project/a.py") "txt") ∧
    readFile
        (appendFile [("./project/a.py", "def f(: pass"), (fixedPath "a.py", "old fix")]
          docPath (reviewBlock (basename "./project/a.py") "txt"))
        (fixedPath (basename "./project/a.py")) =
      readFile [("./project/a.py", "def f(: pass"), (fixedPath "a.py", "old fix")]
        (fixedPath (basename "./project/a.py")) := by
  have h := C10_thm (fun _ _ => some "txt") (fun p => p == docPath)
    [("./project/a.py", "def f(: pass"), (fixedPath "a.py", "old fix")]
    ⟨false, "./project/a.py", 0⟩ "def f(: pass" "txt" "txt"
    (by decide) rfl rfl rfl (by simp) (by simp [fixedPath_ne_docPath])
  exact ⟨by rw [h.1], h.2.1, h.2.2⟩

/-- Claim C3, amended: the single dispatcher thread gives every reachable
observer state (i) FIFO conservation — the events arrived so far are exactly
the events dequeued so far followed by the pending queue, so no event is ever
dropped and runs start in arrival order — and (ii) at most one pipeline run
in flight for any path (indeed at most one overall); and (iii) every eligible
arrived event has either already started its run or is still queued. What the
claim adds beyond this fails (see the counterexample): a queued event need not
start immediately after the current run for its file completes, because
earlier-queued events for other files start first. -/
theorem C3_thm (s : DispatchState) (h : Relation.ReflTransGen DStep initState s) :
    s.arrived = s.dequeued ++ s.queue ∧
    (∀ p : String, ((inFlight s).filter (fun e => e.src_path = p)).length ≤ 1) ∧
    (∀ e : Event, e ∈ s.arrived → eligibleEvent e.is_directory e.src_path = true →
      e ∈ runsStarted s ∨ e ∈ s.queue) := by
  induction h with
  | refl =>
    refine ⟨rfl, fun p => inFlight_filter_length _ p, ?_⟩
    intro e he
    simp [initState] at he
  | @tail b c hsteps hstep ih =>
    obtain ⟨ih1, _, ih3⟩ := ih
    refine ⟨?_, fun p => inFlight_filter_length _ p, ?_⟩
    · cases hstep with
      | arrive e => simp only; rw [ih1, List.append_assoc]
      | skip e q hq hr he => simp only; rw [ih1, hq]; simp
      | start e q hq hr he => simp only; rw [ih1, hq]; simp
      | finish e hr => simpa using ih1
    · cases hstep with
      | arrive e =>
        intro x hx helig
        simp only at hx ⊢
        rcases List.mem_append.mp hx with hx2 | hx2
        · rcases ih3 x hx2 helig with hs | hs
          · exact Or.inl hs
          · exact Or.inr (List.mem_append_left _ hs)
        · rw [List.mem_singleton.mp hx2]
          exact Or.inr (List.mem_append_right _ (List.mem_singleton_self e))
      | skip e q hq hr he =>
        intro x hx helig
        simp only at hx ⊢
        rcases ih3 x hx helig with hs | hs
        · refine Or.inl ?_
          unfold runsStarted at hs ⊢
          simp only [List.filter_append]
          exact List.mem_append_left _ hs
        · rw [hq] at hs
          rcases List.mem_cons.mp hs with hs2 | hs2
          · exfalso
            rw [hs2] at helig
            rw [helig] at he
            cases he
          · exact Or.inr hs2
      | start e q hq hr he =>
        intro x hx helig
        simp only at hx ⊢
        rcases ih3 x hx helig with hs | hs
        · refine Or.inl ?_
          unfold runsStarted at hs ⊢
          simp only [List.filter_append]
          exact List.mem_append_left _ hs
        · rw [hq] at hs
          rcases List.mem_cons.mp hs with hs2 | hs2
          · refine Or.inl ?_
            unfold runsStarted
            simp only [List.filter_append]
            refine List.mem_append_right _ ?_
            rw [hs2]
            simp [he]
          · exact Or.inr hs2
      | finish e hr =>
        intro x hx helig
        simp only at hx ⊢
        exact ih3 x hx helig

/-- First event of the C3 scenario: a modification of `./project/a.py`. -/
def evA : Event := ⟨false, "./project/a.py", 0⟩

/-- Second event of the C3 scenario: a modification of `./project/b.py`,
queued while the `a.py` run is in flight. -/
def evB : Event := ⟨false, "./project/b.py", 10⟩

/-- Third event of the C3 scenario: a second modification of
`./project/a.py`, arriving while the first `a.py` run is in flight. -/
def evA2 : Event := ⟨false, "./project/a.py", 20⟩

/-- Observer state of the C3 scenario in which the `a.py` run is in flight
and `evB`, `evA2` are queued behind it. -/
def s1cex : DispatchState := ⟨[evB, evA2], some evA, [evA], [evA, evB, evA2]⟩

/-- Observer state of the C3 scenario after the `a.py` run completes: the
next run started is `evB`'s, and `evA2` is still queued. -/
def s2cex : DispatchState := ⟨[evA2], some evB, [evA, evB], [evA, evB, evA2]⟩

/-- Claim C3, counterexample: an execution reaches a state (`s1cex`) in which
a run for `./project/a.py` is in flight and a new event for the same file
(`evA2`) is queued behind an event for `./project/b.py`; the execution
continues to `s2cex`, where the `a.py` run has completed and a run has
started — but it is `evB`'s run for the other file, with `evA2` still
queued. So the queued same-file event does not start immediately after the
current run for its file completes. -/
theorem C3_counterexample :
    Relation.ReflTransGen DStep initState s1cex ∧
    s1cex.running = some evA ∧
    evA2 ∈ s1cex.queue ∧
    evA2.src_path = evA.src_path ∧
    Relation.ReflTransGen DStep s1cex s2cex ∧
    runsStarted s2cex = [evA, evB] ∧
    s2cex.queue = [evA2] ∧
    evB.src_path ≠ evA.src_path := by
  refine ⟨?_, rfl, by decide, rfl, ?_, by decide, rfl, by decide⟩
  · exact Relation.ReflTransGen.head (DStep.arrive initState evA)
      (Relation.ReflTransGen.head
        (DStep.start ⟨[evA], none, [], [evA]⟩ evA [] rfl rfl (by decide))
        (Relation.ReflTransGen.head
          (DStep.arrive ⟨[], some evA, [evA], [evA]⟩ evB)
          (Relation.ReflTransGen.head
            (DStep.arrive ⟨[evB], some evA, [evA], [evA, evB]⟩ evA2)
            Relation.ReflTransGen.refl)))
  · exact Relation.ReflTransGen.head (DStep.finish s1cex evA rfl)
      (Relation.ReflTransGen.head
        (DStep.start ⟨[evB, evA2], none, [evA], [evA, evB, evA2]⟩ evB [evA2]
          rfl rfl (by decide))
        Relation.ReflTransGen.refl)

/-- Claim C3, witness: the amended theorem applied to a concrete reachable
state with one run in flight. -/
theorem C3_witness :
    (⟨[], some evA, [evA], [evA]⟩ : DispatchState).arrived =
      (⟨[], some evA, [evA], [evA]⟩ : DispatchState).dequeued ++
        (⟨[], some evA, [evA], [evA]⟩ : DispatchState).queue ∧
    (evA ∈ runsStarted ⟨[], some evA, [evA], [evA]⟩ ∨
      evA ∈ (⟨[], some evA, [evA], [evA]⟩ : DispatchState).queue) := by
  have hreach : Relation.ReflTransGen DStep initState ⟨[], some evA, [evA], [evA]⟩ :=
    Relation.ReflTransGen.head (DStep.arrive initState evA)
      (Relation.ReflTransGen.head
        (DStep.start ⟨[evA], none, [], [evA]⟩ evA [] rfl rfl (by decide))
        Relation.ReflTransGen.refl)
  have h := C3_thm ⟨[], some evA, [evA], [evA]⟩ hreach
  exact ⟨h.1, h.2.2 evA (by decide) (by decide)⟩

end ExtInt
